import Mathlib

/-
Verification of the daily-rates-updater extraction pipeline.

The embedding models the most robust variant of the scraper (the one with
card scoping by exactly-one-table, three-column rate records and the
uniqueness / completeness validators).  Rendered DOM documents are modelled
as a tree of elements and text nodes; JS strings are modelled as lists of
characters.  The JS Number conversion is modelled exactly over decimal
numbers (an integer times a power of ten, kept in canonical form): the
tokens this program parses are short decimal strings, and on them JS
number equality coincides with exact decimal equality.
-/

set_option maxHeartbeats 1000000

deriving instance DecidableEq for Except

/-- Whitespace characters as matched by the JS regex class backslash-s
    (restricted to the ASCII range, which is all the inputs contain). -/
def isWsChar (c : Char) : Bool :=
  c = ' ' || c = '\t' || c = '\n' || c = '\r' || c = '\x0b' || c = '\x0c'

/-- Word characters for the regex word-boundary test: [A-Za-z0-9_]. -/
def isWordChar (c : Char) : Bool :=
  c.isAlpha || c.isDigit || c = '_'

/-- ASCII lower-casing, character by character, as String.toLowerCase does
    on the ASCII headings and labels this program handles. -/
def toLowerCl (l : List Char) : List Char :=
  l.map Char.toLower

/-- JS String.trim: drop leading and trailing whitespace. -/
def trimCl (l : List Char) : List Char :=
  ((l.dropWhile isWsChar).reverse.dropWhile isWsChar).reverse

/-- Collapse maximal runs of spaces to a single space. -/
def squeezeSpaces : List Char → List Char
  | [] => []
  | [c] => [c]
  | a :: b :: rest =>
    if a = ' ' && b = ' ' then squeezeSpaces (b :: rest)
    else a :: squeezeSpaces (b :: rest)

/-- JS replace of every whitespace run by a single space. -/
def collapseWs (l : List Char) : List Char :=
  squeezeSpaces (l.map (fun c => if isWsChar c then ' ' else c))

/-- Numeric value of a list of decimal digits. -/
def digitsToNat (ds : List Char) : Nat :=
  ds.foldl (fun a c => a * 10 + (c.toNat - 48)) 0

/-- An exact decimal number: the value num / 10 ^ exp, kept canonical
    (num not divisible by 10 unless exp = 0).  This represents the JS
    number obtained from a decimal token exactly. -/
structure DecNum where
  num : Int
  exp : Nat
deriving DecidableEq, Repr

/-- Canonical form: strip factors of ten shared by numerator and scale. -/
def canonDec : Int → Nat → DecNum
  | n, 0 => ⟨n, 0⟩
  | n, e + 1 => if n % 10 = 0 then canonDec (n / 10) e else ⟨n, e + 1⟩

/-- Build the decimal sign * mant * 10 ^ tenExp in canonical form. -/
def mkDecNum (sign : Int) (mant : Nat) (tenExp : Int) : DecNum :=
  if 0 ≤ tenExp then ⟨sign * (mant * 10 ^ tenExp.toNat : Nat), 0⟩
  else canonDec (sign * mant) (-tenExp).toNat

/-- The rational value of an exact decimal. -/
def DecNum.toRat (d : DecNum) : ℚ :=
  (d.num : ℚ) / (10 : ℚ) ^ d.exp

/-- Value of one hexadecimal digit. -/
def hexVal (c : Char) : Option Nat :=
  if c.isDigit then some (c.toNat - 48)
  else if 'a' ≤ c && c ≤ 'f' then some (c.toNat - 87)
  else if 'A' ≤ c && c ≤ 'F' then some (c.toNat - 55)
  else none

/-- Radix-prefixed integer literal body (after 0x / 0o / 0b), as Number parses it. -/
def parseRadix (base : Nat) (ds : List Char) : Option DecNum :=
  if ds.isEmpty then none
  else
    (ds.foldl
      (fun acc c =>
        match acc, hexVal c with
        | some a, some v => if v < base then some (a * base + v) else none
        | _, _ => none)
      (some 0)).map (fun n => (⟨(n : Int), 0⟩ : DecNum))

/-- Exponent suffix of a decimal literal: empty, or e / E with an optional
    sign and a nonempty digit run reaching the end of the token. -/
def expPart : List Char → Option Int
  | [] => some 0
  | e :: rest =>
    if e = 'e' || e = 'E' then
      let se : Int × List Char :=
        match rest with
        | '+' :: r => (1, r)
        | '-' :: r => (-1, r)
        | _ => (1, rest)
      let ed := se.2.takeWhile Char.isDigit
      if ed.isEmpty || !(se.2.drop ed.length).isEmpty then none
      else some (se.1 * (digitsToNat ed : Int))
    else none

/-- Signed decimal literal with optional fraction and exponent, or Infinity. -/
def jsDecimal (l : List Char) : Option DecNum :=
  let sl : Int × List Char :=
    match l with
    | '+' :: r => (1, r)
    | '-' :: r => (-1, r)
    | _ => (1, l)
  if sl.2 = "Infinity".data then none
  else
    let ip := sl.2.takeWhile Char.isDigit
    let l2 := sl.2.drop ip.length
    match l2 with
    | '.' :: l3 =>
      let fp := l3.takeWhile Char.isDigit
      let l4 := l3.drop fp.length
      if ip.isEmpty && fp.isEmpty then none
      else
        (expPart l4).map (fun ex => mkDecNum sl.1 (digitsToNat (ip ++ fp)) (ex - fp.length))
    | _ =>
      if ip.isEmpty then none
      else (expPart l2).map (fun ex => mkDecNum sl.1 (digitsToNat ip) ex)

/-- Models the JS Number() conversion applied to a whitespace-free token:
    the empty token converts to 0; radix-prefixed integers, signed decimal
    and exponent notation convert exactly; NaN and the infinities are both
    collapsed to none, which is how every caller treats them (they guard
    with Number.isFinite or Number.isNaN before using the value). -/
def jsNumber (l : List Char) : Option DecNum :=
  if l.isEmpty then some ⟨0, 0⟩
  else
    match l with
    | '0' :: x :: rest =>
      if x = 'x' || x = 'X' then parseRadix 16 rest
      else if x = 'o' || x = 'O' then parseRadix 8 rest
      else if x = 'b' || x = 'B' then parseRadix 2 rest
      else jsDecimal l
    | _ => jsDecimal l

/-- parsePercentToNumber from run.mjs: trim, strip percent signs and
    whitespace, strip thousands commas, convert with Number, and keep the
    result only when it is finite. -/
def parsePercentToNumber (v : String) : Option DecNum :=
  let s := trimCl v.data
  let cleaned := (s.filter (fun c => !(c = '%' || isWsChar c))).filter (fun c => !(c = ','))
  jsNumber cleaned

/- A rendered DOM region: element nodes with a tag and children, and text
   nodes.  Defined mutually with its child list so that every traversal is
   structural (and therefore computes inside the kernel). -/
mutual
inductive Dom : Type where
  | text (s : String) : Dom
  | elem (tag : String) (children : DomList) : Dom
inductive DomList : Type where
  | nil : DomList
  | cons (d : Dom) (ds : DomList) : DomList
end

/-- Build a child list from an ordinary list. -/
def dl (l : List Dom) : DomList :=
  l.foldr DomList.cons DomList.nil

/- textContent: concatenation of all text nodes of the subtree, in order. -/
mutual
def textContent : Dom → List Char
  | .text s => s.data
  | .elem _ cs => textContentList cs
def textContentList : DomList → List Char
  | .nil => []
  | .cons d ds => textContent d ++ textContentList ds
end

/- All element nodes of the subtree in document (pre-order) order,
   the node itself included when it is an element. -/
mutual
def preElems : Dom → List Dom
  | .text _ => []
  | .elem tag cs => .elem tag cs :: preElemsList cs
def preElemsList : DomList → List Dom
  | .nil => []
  | .cons d ds => preElems d ++ preElemsList ds
end

/-- The tag of a node (none for text nodes). -/
def tagOf : Dom → Option String
  | .text _ => none
  | .elem tag _ => some tag

/-- Strict element descendants of a node in document order. -/
def strictElems : Dom → List Dom
  | .text _ => []
  | .elem _ cs => preElemsList cs

/-- Does this node have the given tag? -/
def hasTag (t : String) (d : Dom) : Bool :=
  tagOf d = some t

/-- querySelectorAll("table").length on a node: the number of table
    elements among its strict descendants. -/
def countTables (d : Dom) : Nat :=
  ((strictElems d).filter (hasTag "table")).length

/-- querySelector("table") on a node: its first strict-descendant table. -/
def firstTable (d : Dom) : Option Dom :=
  (strictElems d).find? (hasTag "table")

/-- The parent-walking loop of findCardRootByHeading: the input list is the
    chain [heading element, its parent, grandparent, ...]; the loop runs at
    most 24 iterations and stops at the first region whose descendant table
    count is exactly one. -/
def findCardLoop : Nat → List Dom → Option Dom
  | 0, _ => none
  | _ + 1, [] => none
  | fuel + 1, c :: rest =>
    if countTables c = 1 then some c else findCardLoop fuel rest

/-- findCardRootByHeading: resolve the card root from the heading element
    ancestor chain, failing when no ancestor within the depth bound holds
    exactly one table. -/
def findCardRootByHeading (chain : List Dom) (headingText : String) : Except String Dom :=
  match findCardLoop 24 chain with
  | some c => .ok c
  | none => .error ("Could not find card root for heading: " ++ headingText)

/-- findTableWithin: the single table of a card, via querySelector. -/
def findTableWithin (cardEl : Dom) : Except String Dom :=
  match firstTable cardEl with
  | some t => .ok t
  | none => .error "Could not find table inside card"

/-- One step of the date-pattern matcher at the current position, given the
    previous character (for the leading word boundary).  The pattern is
    1-2 digits, whitespace, exactly 3 letters, whitespace, exactly 4
    digits, between word boundaries; it returns the matched characters and
    the remainder of the input. -/
def matchDateAt (prev : Option Char) (l : List Char) : Option (List Char × List Char) :=
  let boundaryBefore :=
    match prev with
    | none => true
    | some c => !isWordChar c
  if boundaryBefore then
    let ds := l.takeWhile Char.isDigit
    if ds.length = 1 || ds.length = 2 then
      let l1 := l.drop ds.length
      let ws1 := l1.takeWhile isWsChar
      if ws1.isEmpty then none
      else
        let l2 := l1.drop ws1.length
        let al := l2.take 3
        if al.length = 3 && al.all Char.isAlpha then
          let l3 := l2.drop 3
          let ws2 := l3.takeWhile isWsChar
          if ws2.isEmpty then none
          else
            let l4 := l3.drop ws2.length
            let ys := l4.take 4
            if ys.length = 4 && ys.all Char.isDigit then
              let l5 := l4.drop 4
              let boundaryAfter :=
                match l5.head? with
                | none => true
                | some c => !isWordChar c
              if boundaryAfter then some (ds ++ ws1 ++ al ++ ws2 ++ ys, l5)
              else none
            else none
        else none
    else none
  else none

/-- Scan for every (non-overlapping, leftmost) date-pattern match, as the
    global regex does; the fuel is an upper bound on the scan steps. -/
def scanDates : Nat → Option Char → List Char → List (List Char)
  | 0, _, _ => []
  | _ + 1, _, [] => []
  | fuel + 1, prev, c :: cs =>
    match matchDateAt prev (c :: cs) with
    | some (m, rest) => m :: scanDates fuel m.getLast? rest
    | none => scanDates fuel (some c) cs

/-- All date-pattern matches of a text, in order. -/
def allDateMatches (l : List Char) : List (List Char) :=
  scanDates (l.length + 1) none l

/-- DATE_RE.test. -/
def hasDateMatch (l : List Char) : Bool :=
  !(allDateMatches l).isEmpty

/-- normalizeDateText from run.mjs: null and the empty string give null,
    anything else is trimmed with whitespace runs collapsed. -/
def normalizeDateText : Option String → Option String
  | none => none
  | some s => if s = "" then none else some (String.mk (collapseWs (trimCl s.data)))

/-- firstDateLike from run.mjs: the first date-pattern match, normalized. -/
def firstDateLike (l : List Char) : Option String :=
  match (allDateMatches l).head? with
  | none => none
  | some m => normalizeDateText (some (String.mk m))

/-- Substring test, as JS String.includes. -/
def containsSub (t : List Char) (p : String) : Bool :=
  (List.range (t.length + 1)).any (fun i => p.data.isPrefixOf (t.drop i))

/-- The normalized form a Treasury row label is matched on: lower-cased
    with every whitespace character removed. -/
def normTreasuryLabel (label : String) : List Char :=
  (toLowerCl label.data).filter (fun c => !isWsChar c)

/-- The Treasury term-key mapper (the local mapKey of
    extractRatesFromTreasuryTable). -/
def mapTreasuryKey (label : String) : Option String :=
  let t := normTreasuryLabel label
  if "1year".data.isPrefixOf t then some "1y"
  else if "2year".data.isPrefixOf t then some "2y"
  else if "3year".data.isPrefixOf t then some "3y"
  else if "5year".data.isPrefixOf t then some "5y"
  else if "7year".data.isPrefixOf t then some "7y"
  else if "10year".data.isPrefixOf t then some "10y"
  else if "30year".data.isPrefixOf t then some "30y"
  else none

/-- The SOFR term-key mapper (the local mapKey of
    extractRatesFromSofrTable). -/
def mapSofrKey (label : String) : Option String :=
  let t := trimCl (toLowerCl label.data)
  if t = "sofr".data then some "sofr"
  else if containsSub t "30-day" && containsSub t "average" then some "30d-avg"
  else if containsSub t "90-day" && containsSub t "average" then some "90d-avg"
  else if containsSub t "1-month" && containsSub t "term" then some "1m-term"
  else if containsSub t "3-month" && containsSub t "term" then some "3m-term"
  else none

/-- One table body row as read by the row extractor: the trimmed texts of
    the first four cells. -/
structure Row where
  termLabel : String
  col1 : String
  col2 : String
  col3 : String
deriving DecidableEq, Repr

/-- A full three-column rate record. -/
structure RateRec where
  col1 : DecNum
  col2 : DecNum
  col3 : DecNum
deriving DecidableEq, Repr

/-- The accumulated key to record mapping (a JS object used as a map). -/
def RateMap := String → Option RateRec

/-- The empty mapping. -/
def emptyRateMap : RateMap := fun _ => none

/-- JS object assignment: set one key. -/
def setRate (m : RateMap) (k : String) (v : RateRec) : RateMap :=
  fun q => if q = k then some v else m q

/- tr elements lying under a tbody, in document order, as
   querySelectorAll("tbody tr") returns them for a table subtree. -/
mutual
def trsUnder : Bool → Dom → List Dom
  | _, .text _ => []
  | inTbody, .elem tag cs =>
    (if inTbody && tag = "tr" then [Dom.elem tag cs] else []) ++
      trsUnderList (inTbody || tag = "tbody") cs
def trsUnderList : Bool → DomList → List Dom
  | _, .nil => []
  | inTbody, .cons d ds => trsUnder inTbody d ++ trsUnderList inTbody ds
end

/-- querySelectorAll("tbody tr") scoped to a table element. -/
def tableTrs : Dom → List Dom
  | .text _ => []
  | .elem _ cs => trsUnderList false cs

/-- querySelectorAll("td") scoped to a row element, trimmed text contents. -/
def tdTexts (tr : Dom) : List String :=
  ((strictElems tr).filter (hasTag "td")).map (fun td => String.mk (trimCl (textContent td)))

/-- The row extractor: each body row with at least four cells becomes a
    Row of its first four trimmed cell texts; shorter rows are dropped. -/
def rowsFromTable (table : Dom) : List Row :=
  (tableTrs table).filterMap (fun tr =>
    match tdTexts tr with
    | a :: b :: c :: d :: _ => some ⟨a, b, c, d⟩
    | _ => none)

/-- One accumulation step of extractRatesFromTreasuryTable: unrecognized
    labels are skipped, a row with any unparseable value is skipped whole,
    otherwise the key is assigned the full three-column record. -/
def treasuryStep (m : RateMap) (r : Row) : RateMap :=
  match mapTreasuryKey r.termLabel with
  | none => m
  | some key =>
    match parsePercentToNumber r.col1, parsePercentToNumber r.col2, parsePercentToNumber r.col3 with
    | some c1, some c2, some c3 => setRate m key ⟨c1, c2, c3⟩
    | _, _, _ => m

/-- The accumulated Treasury mapping after folding all rows in order. -/
def accumulateTreasury (rows : List Row) : RateMap :=
  rows.foldl treasuryStep emptyRateMap

/-- One accumulation step of extractRatesFromSofrTable. -/
def sofrStep (m : RateMap) (r : Row) : RateMap :=
  match mapSofrKey r.termLabel with
  | none => m
  | some key =>
    match parsePercentToNumber r.col1, parsePercentToNumber r.col2, parsePercentToNumber r.col3 with
    | some c1, some c2, some c3 => setRate m key ⟨c1, c2, c3⟩
    | _, _, _ => m

/-- The accumulated SOFR mapping after folding all rows in order. -/
def accumulateSofr (rows : List Row) : RateMap :=
  rows.foldl sofrStep emptyRateMap

/-- The required Treasury term keys, in the order the completeness loop
    checks them. -/
def requiredTreasury : List String := ["1y", "2y", "3y", "5y", "7y", "10y", "30y"]

/-- The required SOFR term keys, in check order. -/
def requiredSofr : List String := ["sofr", "30d-avg", "90d-avg", "1m-term", "3m-term"]

/-- The completeness loop: throw on the first required key absent from the
    mapping, with the message naming that key. -/
def checkRequired (msgPre : String) (req : List String) (m : RateMap) : Except String Unit :=
  match req with
  | [] => .ok ()
  | k :: ks =>
    match m k with
    | none => .error (msgPre ++ k)
    | some _ => checkRequired msgPre ks m

/-- extractRatesFromTreasuryTable on the extracted rows: accumulate, then
    enforce completeness. -/
def extractRatesFromTreasuryTable (rows : List Row) : Except String RateMap :=
  match checkRequired "Missing treasury row for term_key: " requiredTreasury (accumulateTreasury rows) with
  | .error e => .error e
  | .ok _ => .ok (accumulateTreasury rows)

/-- extractRatesFromSofrTable on the extracted rows. -/
def extractRatesFromSofrTable (rows : List Row) : Except String RateMap :=
  match checkRequired "Missing SOFR row for term_key: " requiredSofr (accumulateSofr rows) with
  | .error e => .error e
  | .ok _ => .ok (accumulateSofr rows)

/-- The three column header dates, as displayed left to right. -/
structure DateTriple where
  col1 : Option String
  col2 : Option String
  col3 : Option String
deriving DecidableEq, Repr

/- The element nodes the TreeWalker of extractThreeHeaderDatesFromCard
   visits: the card root itself, then every element in document order up
   to (but not including) the first table, where the walk stops.  The
   isBeforeTable test of the source is satisfied by every one of these
   nodes, because compareDocumentPosition reports FOLLOWING both for
   elements the table comes after in document order and for ancestors of
   the table (for those together with CONTAINED_BY) - in particular the
   card root itself passes the test even though its textContent spans the
   whole card. -/
def preTableElems (card : Dom) : List Dom :=
  card :: (strictElems card).takeWhile (fun n => !hasTag "table" n)

/-- Collect the first three unique date matches, in encounter order, from
    the candidate text chunks. -/
def firstThreeUnique (chunks : List (List Char)) : List (List Char) :=
  chunks.foldl
    (fun acc c =>
      (allDateMatches c).foldl
        (fun acc2 m =>
          if acc2.length = 3 then acc2
          else
            let v := collapseWs (trimCl m)
            if v ∈ acc2 then acc2 else acc2 ++ [v])
        acc)
    []

/-- extractThreeHeaderDatesFromCard: walk the card, collect the
    whitespace-normalized text of each visited element that contains a
    date pattern, pull the date matches from those chunks in order and
    keep the first three unique ones; anything other than exactly three
    is a failure. -/
def extractThreeHeaderDatesFromCard (card : Dom) : Except String DateTriple :=
  let dates :=
    match firstTable card with
    | none => []
    | some _ =>
      let chunks := (preTableElems card).filterMap (fun n =>
        let t := trimCl (collapseWs (textContent n))
        if !t.isEmpty && hasDateMatch t then some t else none)
      firstThreeUnique chunks
  match dates with
  | [a, b, c] =>
    .ok ⟨normalizeDateText (some (String.mk a)), normalizeDateText (some (String.mk b)),
      normalizeDateText (some (String.mk c))⟩
  | _ => .error "Could not extract 3 header dates from card"

/-- The whitespace-collapsed, trimmed full text of a card. -/
def cardFullText (card : Dom) : List Char :=
  trimCl (collapseWs (textContent card))

/-- Downward scan for String.lastIndexOf: the greatest start position at
    most the given bound where the pattern occurs. -/
def lastIdxGo (l pat : List Char) : Nat → Option Nat
  | 0 => if pat.isPrefixOf l then some 0 else none
  | i + 1 => if pat.isPrefixOf (l.drop (i + 1)) then some (i + 1) else lastIdxGo l pat i

/-- JS String.lastIndexOf (none for -1). -/
def lastIndexOfList (l pat : List Char) : Option Nat :=
  lastIdxGo l pat l.length

/-- The word searched for by the updated-date extractor. -/
def updatedChars : List Char := "updated".data

/-- The text window the updated date is searched in: from the last
    case-insensitive occurrence of "updated" to at most 140 characters
    further, or the whole text when the word is absent. -/
def updatedWindow (full : List Char) : List Char :=
  match lastIndexOfList (toLowerCl full) updatedChars with
  | some i => (full.drop i).take (min full.length (i + 140) - i)
  | none => full

/-- extractUpdatedDateFromCard: the first date-pattern match in the
    updated window of the card text. -/
def extractUpdatedDateFromCard (cardEl : Dom) : Except String String :=
  match firstDateLike (updatedWindow (cardFullText cardEl)) with
  | some d => .ok d
  | none =>
    .error ("Could not find Updated date in card text: "
      ++ String.mk (updatedWindow (cardFullText cardEl)))

/-- assert3UniqueDates: the three normalized header dates must be three
    distinct values. -/
def assert3UniqueDates (label : String) (d : DateTriple) : Except String Unit :=
  let arr := [d.col1, d.col2, d.col3].map normalizeDateText
  if arr.dedup.length ≠ 3 then .error (label ++ " header dates are not 3 unique values")
  else .ok ()

/-- The assembled payload of one run. -/
structure Payload where
  datesTreasury : String
  datesSofr : String
  treasury_dates : DateTriple
  sofr_dates : DateTriple
  treasury : RateMap
  sofr : RateMap

/-- The rows of the single table of a card (empty when the card has no
    table, in which case the pipeline has already failed). -/
def rowsOfCard (card : Dom) : List Row :=
  match firstTable card with
  | some t => rowsFromTable t
  | none => []

/-- The extraction, validation and assembly portion of main, from the two
    located cards to the payload handed to the outbound POST: any error
    aborts the run before a payload exists. -/
def mainExtract (treasuryCard sofrCard : Dom) : Except String Payload :=
  match findTableWithin treasuryCard with
  | .error e => .error e
  | .ok treasuryTable =>
  match findTableWithin sofrCard with
  | .error e => .error e
  | .ok sofrTable =>
  match extractThreeHeaderDatesFromCard treasuryCard with
  | .error e => .error e
  | .ok treasuryDates3 =>
  match extractThreeHeaderDatesFromCard sofrCard with
  | .error e => .error e
  | .ok sofrDates3 =>
  match assert3UniqueDates "Treasury" treasuryDates3 with
  | .error e => .error e
  | .ok _ =>
  match assert3UniqueDates "SOFR" sofrDates3 with
  | .error e => .error e
  | .ok _ =>
  match extractUpdatedDateFromCard treasuryCard with
  | .error e => .error e
  | .ok treasuryUpdated =>
  match extractUpdatedDateFromCard sofrCard with
  | .error e => .error e
  | .ok sofrUpdated =>
  match extractRatesFromTreasuryTable (rowsFromTable treasuryTable) with
  | .error e => .error e
  | .ok treasury =>
  match extractRatesFromSofrTable (rowsFromTable sofrTable) with
  | .error e => .error e
  | .ok sofr =>
    .ok ⟨treasuryUpdated, sofrUpdated, treasuryDates3, sofrDates3, treasury, sofr⟩

/-- A table row helper for the concrete documents below. -/
def mkTRow (label v1 v2 v3 : String) : Dom :=
  .elem "tr" (dl [.elem "td" (dl [.text label]), .elem "td" (dl [.text v1]),
    .elem "td" (dl [.text v2]), .elem "td" (dl [.text v3])])

/-- A heading block with no dates in it. -/
def c2PreDiv : Dom := .elem "div" (dl [.text "Rates "])

/-- A table whose body cell holds three date strings. -/
def c2Table : Dom :=
  .elem "table" (dl [.elem "tbody" (dl [.elem "tr" (dl [.elem "td" (dl
    [.text "16 Jan 2026, 9 Jan 2026, 2 Jan 2026"])])])])

/-- A card in which every date lives inside the table body. -/
def c2Card : Dom := .elem "div" (dl [c2PreDiv, c2Table])

/-- A card whose three dates appear in free text before the table, in
    document order 16 Jan, 9 Jan, 2 Jan. -/
def c2OrderCard : Dom := .elem "div" (dl [
  .elem "div" (dl [.text "cols: 16 Jan 2026 | 9 Jan 2026 | 2 Jan 2026 "]),
  .elem "table" (dl [.elem "tbody" (dl [])])])

/-- A Treasury card with every required row except the 10-year one. -/
def c3Card : Dom := .elem "div" (dl [.elem "div" (dl [.text "U.S. Treasuries "]),
  .elem "table" (dl [.elem "tbody" (dl [
    mkTRow "1 Year" "3.5%" "3.6%" "3.7%",
    mkTRow "2 Year" "3.5%" "3.6%" "3.7%",
    mkTRow "3 Year" "3.5%" "3.6%" "3.7%",
    mkTRow "5 Year" "3.5%" "3.6%" "3.7%",
    mkTRow "7 Year" "3.5%" "3.6%" "3.7%",
    mkTRow "30 Year" "3.5%" "3.6%" "3.7%"])])])

/-- An empty placeholder card. -/
def cDummy : Dom := .elem "div" (dl [])

/-- A card with the usual updated footer text. -/
def upCard : Dom := .elem "div" (dl [.text "Updated 21 Jan 2026 | 18:45 ET"])

/-- A chain of ancestors none of which holds exactly one table. -/
def c1Chain : List Dom := [Dom.elem "div" (dl [])]

/-- A row whose first value token is unparseable. -/
def c6Row : Row := ⟨"1 Year", "abc", "3.5", "3.6"⟩

/-- Two rows mapping to the same Treasury key. -/
def c10RowA : Row := ⟨"10 Year", "4.1%", "4.2%", "4.3%"⟩

/-- The later of the two duplicate-key rows. -/
def c10RowB : Row := ⟨"10 Year", "4.4%", "4.5%", "4.6%"⟩

/-- Does a row parse in full? -/
def rowParses (r : Row) : Bool :=
  (parsePercentToNumber r.col1).isSome && (parsePercentToNumber r.col2).isSome &&
    (parsePercentToNumber r.col3).isSome

/-- Does a row contribute a record to this Treasury key? -/
def contributesTreasury (k : String) (r : Row) : Bool :=
  (mapTreasuryKey r.termLabel == some k) && rowParses r

/-- The occurrence of a pattern at a position of a text. -/
def occursAt (l pat : List Char) (i : Nat) : Prop := pat <+: l.drop i

/-- The recognized Treasury digit strings with their keys. -/
def treasuryPairs : List (List Char × String) :=
  [("1".data, "1y"), ("2".data, "2y"), ("3".data, "3y"), ("5".data, "5y"),
   ("7".data, "7y"), ("10".data, "10y"), ("30".data, "30y")]

/-- Claim C5: ValueParser strips percent signs, whitespace and thousands
    commas and parses the remainder as a decimal number, so that
    "3.65000%" and "3.65%" both parse to 3.65, "4,072.37" parses to
    4072.37, and "abc" is unparseable. -/
theorem claim_C5_value_parsing :
    parsePercentToNumber "3.65000%" = parsePercentToNumber "3.65%"
      ∧ (parsePercentToNumber "3.65%").map DecNum.toRat = some (3.65 : ℚ)
      ∧ (parsePercentToNumber "4,072.37").map DecNum.toRat = some (4072.37 : ℚ)
      ∧ parsePercentToNumber "abc" = none := by
  refine ⟨by decide, ?_, ?_, by decide⟩
  · have h : parsePercentToNumber "3.65%" = some ⟨365, 2⟩ := by decide
    rw [h]
    simp only [Option.map_some']
    norm_num [DecNum.toRat]
  · have h : parsePercentToNumber "4,072.37" = some ⟨407237, 2⟩ := by decide
    rw [h]
    simp only [Option.map_some']
    norm_num [DecNum.toRat]

/-- Characters of the trimmed text come from the original text. -/
lemma mem_of_mem_trimCl {c : Char} {l : List Char} (h : c ∈ trimCl l) : c ∈ l := by
  unfold trimCl at h
  have h1 := List.mem_reverse.mp h
  have h2 := (List.dropWhile_sublist isWsChar).mem h1
  have h3 := List.mem_reverse.mp h2
  exact (List.dropWhile_sublist isWsChar).mem h3

/-- Claim C9: a non-null token made only of whitespace, percent signs and
    commas (the empty string included) cleans to the empty string, whose
    numeric conversion is 0, so ValueParser returns the number 0 rather
    than the unparseable result; consequently a blank value cell is
    recorded as a rate of 0 instead of dropping its row. -/
theorem claim_C9_blank_token_zero :
    (∀ s : String, (∀ c ∈ s.data, c = '%' ∨ c = ',' ∨ isWsChar c = true) →
        parsePercentToNumber s = some ⟨0, 0⟩ ∧ DecNum.toRat ⟨0, 0⟩ = 0)
      ∧ accumulateTreasury [⟨"1 Year", "", "", ""⟩] "1y" = some ⟨⟨0, 0⟩, ⟨0, 0⟩, ⟨0, 0⟩⟩ := by
  refine ⟨fun s h => ⟨?_, by norm_num [DecNum.toRat]⟩, by decide⟩
  have hclean :
      ((trimCl s.data).filter (fun c => !(c = '%' || isWsChar c))).filter (fun c => !(c = ','))
        = [] := by
    apply List.filter_eq_nil_iff.mpr
    intro c hc
    have hc1 := List.mem_filter.mp hc
    have hmem : c ∈ s.data := mem_of_mem_trimCl hc1.1
    have hkeep := hc1.2
    rcases h c hmem with hpc | hcm | hws
    · simp [hpc] at hkeep
    · simp [hcm]
    · simp [hws] at hkeep
  simp only [parsePercentToNumber]
  rw [hclean]
  decide

/-- Claim C2 (exhibit): on a card whose only dates sit inside the table
    body, the fallback header-date extraction nevertheless succeeds and
    returns those body dates, because the card root itself passes the
    before-the-table filter and its text chunk spans the whole card; on a
    card with three dates in pre-table free text it returns them in
    encounter order as the claim states. -/
theorem claim_C2_header_dates_fallback :
    extractThreeHeaderDatesFromCard c2Card
        = .ok ⟨some "16 Jan 2026", some "9 Jan 2026", some "2 Jan 2026"⟩
      ∧ firstDateLike (trimCl (collapseWs (textContent c2PreDiv))) = none
      ∧ hasDateMatch (textContent c2Table) = true
      ∧ extractThreeHeaderDatesFromCard c2OrderCard
        = .ok ⟨some "16 Jan 2026", some "9 Jan 2026", some "2 Jan 2026"⟩ := by
  decide

lemma findCardLoop_ok :
    ∀ (fuel : Nat) (chain : List Dom) (c : Dom),
      findCardLoop fuel chain = some c →
      countTables c = 1 ∧ ∃ i, i < fuel ∧ chain.get? i = some c ∧
        ∀ j, j < i → ∀ d, chain.get? j = some d → countTables d ≠ 1 := by
  intro fuel
  induction fuel with
  | zero => intro chain c h; simp [findCardLoop] at h
  | succ n ih =>
    intro chain c h
    cases chain with
    | nil => simp [findCardLoop] at h
    | cons x rest =>
      by_cases hx : countTables x = 1
      · have hxc : x = c := by
          simp only [findCardLoop, if_pos hx] at h
          exact Option.some.inj h
        subst hxc
        exact ⟨hx, 0, Nat.succ_pos n, rfl, fun j hj => absurd hj (Nat.not_lt_zero j)⟩
      · simp only [findCardLoop, if_neg hx] at h
        obtain ⟨hc, i, hi, hget, hprev⟩ := ih rest c h
        refine ⟨hc, i + 1, Nat.succ_lt_succ hi, by simpa using hget, ?_⟩
        intro j hj d hd
        cases j with
        | zero =>
          simp at hd
          rw [← hd]; exact hx
        | succ j' =>
          exact hprev j' (Nat.lt_of_succ_lt_succ hj) d (by simpa using hd)

lemma findCardLoop_none :
    ∀ (fuel : Nat) (chain : List Dom),
      (∀ d ∈ chain.take fuel, countTables d ≠ 1) → findCardLoop fuel chain = none := by
  intro fuel
  induction fuel with
  | zero => intro chain h; rfl
  | succ n ih =>
    intro chain h
    cases chain with
    | nil => rfl
    | cons x rest =>
      have hx : countTables x ≠ 1 := h x (by simp)
      simp only [findCardLoop, if_neg hx]
      exact ih rest (fun d hd => h d (by simp [hd]))

/-- Claim C1: findCardRootByHeading returns the smallest ancestor in the
    heading ancestor chain that contains exactly one data table, testing
    the table count at each parent level up to the depth bound of 24; when
    no ancestor within the bound contains exactly one table it fails with
    the not-found error rather than returning a region with zero or with
    two or more tables. -/
theorem claim_C1_card_locator (chain : List Dom) (headingText : String) :
    (∀ c, findCardRootByHeading chain headingText = .ok c →
        countTables c = 1 ∧ ∃ i, i < 24 ∧ chain.get? i = some c ∧
          ∀ j, j < i → ∀ d, chain.get? j = some d → countTables d ≠ 1)
      ∧ ((∀ d ∈ chain.take 24, countTables d ≠ 1) →
          findCardRootByHeading chain headingText
            = .error ("Could not find card root for heading: " ++ headingText)) := by
  constructor
  · intro c hc
    unfold findCardRootByHeading at hc
    cases hloop : findCardLoop 24 chain with
    | none => rw [hloop] at hc; exact Except.noConfusion hc
    | some c0 =>
      rw [hloop] at hc
      have : c0 = c := Except.ok.inj hc
      subst this
      exact findCardLoop_ok 24 chain c0 hloop
  · intro h
    unfold findCardRootByHeading
    rw [findCardLoop_none 24 chain h]

/-- Witness for claim C1 at a concrete chain with no one-table ancestor. -/
theorem claim_C1_card_locator_witness :
    findCardRootByHeading c1Chain "U.S. Treasuries"
      = .error "Could not find card root for heading: U.S. Treasuries" := by
  have h := (claim_C1_card_locator c1Chain "U.S. Treasuries").2 (by decide)
  exact h

lemma findTableWithin_ok {card t : Dom} (h : findTableWithin card = .ok t) :
    firstTable card = some t := by
  unfold findTableWithin at h
  cases hf : firstTable card with
  | none => rw [hf] at h; exact Except.noConfusion h
  | some t0 => rw [hf] at h; rw [Except.ok.inj h]

lemma mainExtract_ok_inv {t s : Dom} {p : Payload} (h : mainExtract t s = .ok p) :
    (∃ tT, findTableWithin t = .ok tT ∧
        extractRatesFromTreasuryTable (rowsFromTable tT) = .ok p.treasury)
      ∧ (∃ sT, findTableWithin s = .ok sT ∧
        extractRatesFromSofrTable (rowsFromTable sT) = .ok p.sofr)
      ∧ assert3UniqueDates "Treasury" p.treasury_dates = .ok ()
      ∧ assert3UniqueDates "SOFR" p.sofr_dates = .ok ()
      ∧ extractThreeHeaderDatesFromCard t = .ok p.treasury_dates
      ∧ extractThreeHeaderDatesFromCard s = .ok p.sofr_dates := by
  unfold mainExtract at h
  split at h
  · exact Except.noConfusion h
  next tT h1 =>
  split at h
  · exact Except.noConfusion h
  next sT h2 =>
  split at h
  · exact Except.noConfusion h
  next t3 h3 =>
  split at h
  · exact Except.noConfusion h
  next s3 h4 =>
  split at h
  · exact Except.noConfusion h
  next u5 h5 =>
  split at h
  · exact Except.noConfusion h
  next u6 h6 =>
  split at h
  · exact Except.noConfusion h
  next tU h7 =>
  split at h
  · exact Except.noConfusion h
  next sU h8 =>
  split at h
  · exact Except.noConfusion h
  next tre h9 =>
  split at h
  · exact Except.noConfusion h
  next sof h10 =>
  have hp := Except.ok.inj h
  subst hp
  cases u5
  cases u6
  exact ⟨⟨tT, h1, h9⟩, ⟨sT, h2, h10⟩, h5, h6, h3, h4⟩

lemma checkRequired_error_of_find (msgPre : String) (req : List String) (m : RateMap)
    (k : String) (h : req.find? (fun q => (m q).isNone) = some k) :
    checkRequired msgPre req m = .error (msgPre ++ k) := by
  induction req with
  | nil => simp [List.find?] at h
  | cons a as ih =>
    rw [List.find?] at h
    cases hma : m a with
    | none =>
      rw [hma] at h
      simp only [Option.isNone_none] at h
      have hk : a = k := Option.some.inj h
      subst hk
      simp only [checkRequired, hma]
    | some v =>
      rw [hma] at h
      simp only [Option.isNone_some] at h
      simp only [checkRequired, hma]
      exact ih h

/-- Claim C3: for each dataset family, when a required key is absent from
    the accumulated mapping after row extraction, extraction fails naming
    the first missing key in enumeration order (the find? in the statement
    is exactly that first missing key), and the run then emits no payload
    for any dataset. -/
theorem claim_C3_incomplete_dataset (tCard sCard : Dom) :
    (∀ k, requiredTreasury.find?
          (fun q => (accumulateTreasury (rowsOfCard tCard) q).isNone) = some k →
        extractRatesFromTreasuryTable (rowsOfCard tCard)
            = .error ("Missing treasury row for term_key: " ++ k)
          ∧ ∀ p, mainExtract tCard sCard ≠ .ok p)
      ∧ (∀ k, requiredSofr.find?
          (fun q => (accumulateSofr (rowsOfCard sCard) q).isNone) = some k →
        extractRatesFromSofrTable (rowsOfCard sCard)
            = .error ("Missing SOFR row for term_key: " ++ k)
          ∧ ∀ p, mainExtract tCard sCard ≠ .ok p) := by
  constructor
  · intro k hfind
    have herr := checkRequired_error_of_find "Missing treasury row for term_key: "
      requiredTreasury (accumulateTreasury (rowsOfCard tCard)) k hfind
    have hext : extractRatesFromTreasuryTable (rowsOfCard tCard)
        = .error ("Missing treasury row for term_key: " ++ k) := by
      unfold extractRatesFromTreasuryTable
      rw [herr]
    refine ⟨hext, fun p hp => ?_⟩
    obtain ⟨⟨tT, htT, hok⟩, _⟩ := mainExtract_ok_inv hp
    have hrows : rowsOfCard tCard = rowsFromTable tT := by
      unfold rowsOfCard
      rw [findTableWithin_ok htT]
    rw [← hrows] at hok
    rw [hext] at hok
    exact Except.noConfusion hok
  · intro k hfind
    have herr := checkRequired_error_of_find "Missing SOFR row for term_key: "
      requiredSofr (accumulateSofr (rowsOfCard sCard)) k hfind
    have hext : extractRatesFromSofrTable (rowsOfCard sCard)
        = .error ("Missing SOFR row for term_key: " ++ k) := by
      unfold extractRatesFromSofrTable
      rw [herr]
    refine ⟨hext, fun p hp => ?_⟩
    obtain ⟨_, ⟨sT, hsT, hok⟩, _⟩ := mainExtract_ok_inv hp
    have hrows : rowsOfCard sCard = rowsFromTable sT := by
      unfold rowsOfCard
      rw [findTableWithin_ok hsT]
    rw [← hrows] at hok
    rw [hext] at hok
    exact Except.noConfusion hok

/-- Witness for claim C3 on a concrete Treasury card missing its 10-year
    row: extraction fails naming 10y, matching the claim example. -/
theorem claim_C3_incomplete_dataset_witness :
    extractRatesFromTreasuryTable (rowsOfCard c3Card)
      = .error "Missing treasury row for term_key: 10y" := by
  have h := ((claim_C3_incomplete_dataset c3Card cDummy).1 "10y" (by decide)).1
  exact h

lemma dedup3_iff (x y z : Option String) :
    ([x, y, z].dedup.length = 3) ↔ (x ≠ y ∧ x ≠ z ∧ y ≠ z) := by
  constructor
  · intro h
    have hs : [x, y, z].dedup = [x, y, z] :=
      (List.dedup_sublist _).eq_of_length (by simpa using h)
    have hnd := List.dedup_eq_self.mp hs
    simp only [List.nodup_cons, List.mem_cons, List.not_mem_nil, or_false,
      List.nodup_nil, and_true, not_or] at hnd
    exact ⟨hnd.1.1, hnd.1.2, hnd.2.1⟩
  · intro ⟨hxy, hxz, hyz⟩
    have hnd : ([x, y, z] : List (Option String)).Nodup := by
      simp [List.nodup_cons, hxy, hxz, hyz]
    rw [List.dedup_eq_self.mpr hnd]
    rfl

lemma assert3UniqueDates_ok_iff (label : String) (d : DateTriple) :
    assert3UniqueDates label d = .ok ()
      ↔ ([d.col1, d.col2, d.col3].map normalizeDateText).dedup.length = 3 := by
  unfold assert3UniqueDates
  by_cases h : ([d.col1, d.col2, d.col3].map normalizeDateText).dedup.length = 3
  · simp [h]
  · simp [h]

/-- Claim C4: a DateTriple whose values are not pairwise distinct fails
    validation with the duplicate-dates error (the concrete duplicated
    triple of the claim included), and any payload the run emits carries
    pairwise-distinct treasury and SOFR header dates. -/
theorem claim_C4_duplicate_dates :
    (∀ (label : String) (d : DateTriple),
        (d.col1 = d.col2 ∨ d.col1 = d.col3 ∨ d.col2 = d.col3) →
        assert3UniqueDates label d
          = .error (label ++ " header dates are not 3 unique values"))
      ∧ assert3UniqueDates "Treasury"
          ⟨some "16 Jan 2026", some "16 Jan 2026", some "9 Jan 2026"⟩
          = .error "Treasury header dates are not 3 unique values"
      ∧ (∀ tCard sCard p, mainExtract tCard sCard = .ok p →
          (p.treasury_dates.col1 ≠ p.treasury_dates.col2
            ∧ p.treasury_dates.col1 ≠ p.treasury_dates.col3
            ∧ p.treasury_dates.col2 ≠ p.treasury_dates.col3)
          ∧ (p.sofr_dates.col1 ≠ p.sofr_dates.col2
            ∧ p.sofr_dates.col1 ≠ p.sofr_dates.col3
            ∧ p.sofr_dates.col2 ≠ p.sofr_dates.col3)) := by
  have key : ∀ (label : String) (d : DateTriple),
      (d.col1 = d.col2 ∨ d.col1 = d.col3 ∨ d.col2 = d.col3) →
      assert3UniqueDates label d
        = .error (label ++ " header dates are not 3 unique values") := by
    intro label d hdup
    have hne : [normalizeDateText d.col1, normalizeDateText d.col2,
        normalizeDateText d.col3].dedup.length ≠ 3 := by
      intro h3
      have := (dedup3_iff _ _ _).mp h3
      rcases hdup with h | h | h
      · exact this.1 (congrArg normalizeDateText h)
      · exact this.2.1 (congrArg normalizeDateText h)
      · exact this.2.2 (congrArg normalizeDateText h)
    unfold assert3UniqueDates
    simp [hne]
  refine ⟨key, key "Treasury" ⟨some "16 Jan 2026", some "16 Jan 2026", some "9 Jan 2026"⟩
    (Or.inl rfl), ?_⟩
  intro tCard sCard p hp
  obtain ⟨_, _, hta, hsa, _, _⟩ := mainExtract_ok_inv hp
  have ht3 := (dedup3_iff _ _ _).mp
    (by simpa using (assert3UniqueDates_ok_iff "Treasury" p.treasury_dates).mp hta)
  have hs3 := (dedup3_iff _ _ _).mp
    (by simpa using (assert3UniqueDates_ok_iff "SOFR" p.sofr_dates).mp hsa)
  constructor
  · exact ⟨fun h => ht3.1 (congrArg normalizeDateText h),
      fun h => ht3.2.1 (congrArg normalizeDateText h),
      fun h => ht3.2.2 (congrArg normalizeDateText h)⟩
  · exact ⟨fun h => hs3.1 (congrArg normalizeDateText h),
      fun h => hs3.2.1 (congrArg normalizeDateText h),
      fun h => hs3.2.2 (congrArg normalizeDateText h)⟩

/-- Witness for claim C4 at a concrete duplicated triple. -/
theorem claim_C4_duplicate_dates_witness :
    assert3UniqueDates "SOFR" ⟨some "2 Jan 2026", some "2 Jan 2026", some "9 Jan 2026"⟩
      = .error "SOFR header dates are not 3 unique values" :=
  claim_C4_duplicate_dates.1 "SOFR"
    ⟨some "2 Jan 2026", some "2 Jan 2026", some "9 Jan 2026"⟩ (Or.inl rfl)

lemma treasuryStep_skip (m : RateMap) (r : Row)
    (h : parsePercentToNumber r.col1 = none ∨ parsePercentToNumber r.col2 = none
      ∨ parsePercentToNumber r.col3 = none) :
    treasuryStep m r = m := by
  unfold treasuryStep
  cases hk : mapTreasuryKey r.termLabel with
  | none => rfl
  | some key =>
    cases h1 : parsePercentToNumber r.col1 <;>
      cases h2 : parsePercentToNumber r.col2 <;>
        cases h3 : parsePercentToNumber r.col3 <;> simp_all

lemma sofrStep_skip (m : RateMap) (r : Row)
    (h : parsePercentToNumber r.col1 = none ∨ parsePercentToNumber r.col2 = none
      ∨ parsePercentToNumber r.col3 = none) :
    sofrStep m r = m := by
  unfold sofrStep
  cases hk : mapSofrKey r.termLabel with
  | none => rfl
  | some key =>
    cases h1 : parsePercentToNumber r.col1 <;>
      cases h2 : parsePercentToNumber r.col2 <;>
        cases h3 : parsePercentToNumber r.col3 <;> simp_all

/-- Claim C6: a body row with any unparseable value token is dropped whole,
    locally and non-fatally: it leaves the accumulated mapping of either
    family untouched (so no partially numeric record is ever emitted for
    it) and the extraction outcome is exactly that of the row list without
    it, for both dataset families. -/
theorem claim_C6_unparseable_row_drop (pre post : List Row) (r : Row)
    (h : parsePercentToNumber r.col1 = none ∨ parsePercentToNumber r.col2 = none
      ∨ parsePercentToNumber r.col3 = none) :
    accumulateTreasury (pre ++ r :: post) = accumulateTreasury (pre ++ post)
      ∧ extractRatesFromTreasuryTable (pre ++ r :: post)
          = extractRatesFromTreasuryTable (pre ++ post)
      ∧ accumulateSofr (pre ++ r :: post) = accumulateSofr (pre ++ post)
      ∧ extractRatesFromSofrTable (pre ++ r :: post)
          = extractRatesFromSofrTable (pre ++ post) := by
  have ht : accumulateTreasury (pre ++ r :: post) = accumulateTreasury (pre ++ post) := by
    unfold accumulateTreasury
    rw [List.foldl_append, List.foldl_append, List.foldl_cons, treasuryStep_skip _ r h]
  have hs : accumulateSofr (pre ++ r :: post) = accumulateSofr (pre ++ post) := by
    unfold accumulateSofr
    rw [List.foldl_append, List.foldl_append, List.foldl_cons, sofrStep_skip _ r h]
  refine ⟨ht, ?_, hs, ?_⟩
  · unfold extractRatesFromTreasuryTable
    rw [ht]
  · unfold extractRatesFromSofrTable
    rw [hs]

/-- Witness for claim C6 at a concrete row with an unparseable token. -/
theorem claim_C6_unparseable_row_drop_witness :
    accumulateTreasury [c6Row] = accumulateTreasury [] :=
  (claim_C6_unparseable_row_drop [] [] c6Row (Or.inl (by decide))).1

lemma accumulateFrom_no_contrib (k : String) :
    ∀ (rows : List Row) (m : RateMap),
      (∀ r ∈ rows, contributesTreasury k r = false) →
      rows.foldl treasuryStep m k = m k := by
  intro rows
  induction rows with
  | nil => intro m _; rfl
  | cons x xs ih =>
    intro m h
    rw [List.foldl_cons]
    rw [ih (treasuryStep m x) (fun r hr => h r (List.mem_cons_of_mem x hr))]
    have hx := h x (List.mem_cons_self x xs)
    unfold contributesTreasury rowParses at hx
    cases hk : mapTreasuryKey x.termLabel with
    | none => simp only [treasuryStep, hk]
    | some key =>
      cases h1 : parsePercentToNumber x.col1 with
      | none => simp only [treasuryStep, hk, h1]
      | some a =>
        cases h2 : parsePercentToNumber x.col2 with
        | none => simp only [treasuryStep, hk, h1, h2]
        | some b =>
          cases h3 : parsePercentToNumber x.col3 with
          | none => simp only [treasuryStep, hk, h1, h2, h3]
          | some c =>
            have hne : key ≠ k := by
              intro he
              subst he
              rw [hk, h1, h2, h3] at hx
              simp at hx
            simp only [treasuryStep, hk, h1, h2, h3, setRate]
            rw [if_neg (fun he : k = key => hne he.symm)]

lemma foldl_lookup_last (k : String) :
    ∀ (rows : List Row) (m : RateMap) (r : Row) (a b c : DecNum),
      (rows.filter (contributesTreasury k)).getLast? = some r →
      parsePercentToNumber r.col1 = some a →
      parsePercentToNumber r.col2 = some b →
      parsePercentToNumber r.col3 = some c →
      rows.foldl treasuryStep m k = some ⟨a, b, c⟩ := by
  intro rows
  induction rows with
  | nil => intro m r a b c hlast _ _ _; simp [List.filter] at hlast
  | cons x xs ih =>
    intro m r a b c hlast h1 h2 h3
    rw [List.foldl_cons]
    by_cases hx : contributesTreasury k x
    · rw [List.filter_cons_of_pos hx] at hlast
      cases hxs : xs.filter (contributesTreasury k) with
      | nil =>
        rw [hxs] at hlast
        have hxr : x = r := by simpa using hlast
        subst hxr
        have hnone : ∀ r' ∈ xs, contributesTreasury k r' = false := by
          intro r' hr'
          have := List.filter_eq_nil_iff.mp hxs r' hr'
          simpa using this
        rw [accumulateFrom_no_contrib k xs (treasuryStep m x) hnone]
        have hkey : mapTreasuryKey x.termLabel = some k := by
          unfold contributesTreasury at hx
          have := (Bool.and_eq_true _ _).mp hx
          simpa using this.1
        simp [treasuryStep, hkey, h1, h2, h3, setRate]
      | cons y ys =>
        have hlast2 : (xs.filter (contributesTreasury k)).getLast? = some r := by
          rw [hxs] at hlast ⊢
          simpa using hlast
        exact ih (treasuryStep m x) r a b c hlast2 h1 h2 h3
    · rw [List.filter_cons_of_neg hx] at hlast
      exact ih (treasuryStep m x) r a b c hlast h1 h2 h3

/-- Claim C10: rows are folded in document order and a later full-parsing
    row assigned to an already-seen key overwrites the earlier record with
    no error: the mapping holds, for each key, the values of the last
    contributing row in document order. -/
theorem claim_C10_last_row_wins (rows : List Row) (k : String) (r : Row) (a b c : DecNum)
    (hlast : (rows.filter (contributesTreasury k)).getLast? = some r)
    (h1 : parsePercentToNumber r.col1 = some a)
    (h2 : parsePercentToNumber r.col2 = some b)
    (h3 : parsePercentToNumber r.col3 = some c) :
    accumulateTreasury rows k = some ⟨a, b, c⟩ :=
  foldl_lookup_last k rows emptyRateMap r a b c hlast h1 h2 h3

/-- Witness for claim C10: two full-parsing rows share the key 10y and the
    mapping holds the values of the later one. -/
theorem claim_C10_last_row_wins_witness :
    accumulateTreasury [c10RowA, c10RowB] "10y" = some ⟨⟨44, 1⟩, ⟨45, 1⟩, ⟨46, 1⟩⟩ :=
  claim_C10_last_row_wins [c10RowA, c10RowB] "10y" c10RowB ⟨44, 1⟩ ⟨45, 1⟩ ⟨46, 1⟩
    (by decide) (by decide) (by decide) (by decide)

lemma lastIdxGo_some (l pat : List Char) :
    ∀ i i₀, lastIdxGo l pat i = some i₀ →
      pat.isPrefixOf (l.drop i₀) = true ∧ i₀ ≤ i ∧
        ∀ j, j ≤ i → pat.isPrefixOf (l.drop j) = true → j ≤ i₀ := by
  intro i
  induction i with
  | zero =>
    intro i₀ h
    unfold lastIdxGo at h
    by_cases hp : pat.isPrefixOf l
    · rw [if_pos hp] at h
      have : (0 : Nat) = i₀ := Option.some.inj h
      subst this
      exact ⟨by simpa using hp, Nat.le_refl 0, fun j hj _ => hj⟩
    · rw [if_neg hp] at h
      exact Option.noConfusion h
  | succ n ih =>
    intro i₀ h
    unfold lastIdxGo at h
    by_cases hp : pat.isPrefixOf (l.drop (n + 1))
    · rw [if_pos hp] at h
      have : n + 1 = i₀ := Option.some.inj h
      subst this
      exact ⟨by simpa using hp, Nat.le_refl _, fun j hj _ => hj⟩
    · rw [if_neg hp] at h
      obtain ⟨hpre, hle, hmax⟩ := ih i₀ h
      refine ⟨hpre, Nat.le_succ_of_le hle, fun j hj hpj => ?_⟩
      rcases Nat.eq_or_lt_of_le hj with hje | hjl
      · exact absurd (hje ▸ hpj) hp
      · exact hmax j (Nat.lt_succ_iff.mp hjl) hpj

lemma lastIdxGo_none (l pat : List Char) :
    ∀ i, lastIdxGo l pat i = none →
      ∀ j, j ≤ i → pat.isPrefixOf (l.drop j) = false := by
  intro i
  induction i with
  | zero =>
    intro h j hj
    unfold lastIdxGo at h
    interval_cases j
    by_cases hp : pat.isPrefixOf l
    · rw [if_pos hp] at h; exact Option.noConfusion h
    · exact Bool.eq_false_iff.mpr hp
  | succ n ih =>
    intro h j hj
    unfold lastIdxGo at h
    by_cases hp : pat.isPrefixOf (l.drop (n + 1))
    · rw [if_pos hp] at h; exact Option.noConfusion h
    · rw [if_neg hp] at h
      rcases Nat.eq_or_lt_of_le hj with hje | hjl
      · rw [hje]; exact Bool.eq_false_iff.mpr hp
      · exact ih h j (Nat.lt_succ_iff.mp hjl)

lemma occursAt_le_length (l pat : List Char) (i : Nat) (hne : pat ≠ [])
    (h : occursAt l pat i) : i ≤ l.length := by
  by_contra hgt
  push_neg at hgt
  have hdrop : l.drop i = [] := List.drop_eq_nil_of_le (Nat.le_of_lt hgt)
  unfold occursAt at h
  rw [hdrop] at h
  exact hne (List.prefix_nil.mp h)

/-- Claim C7: the updated-date extractor takes the card text, finds the
    last case-insensitive occurrence of the word updated (the found index
    is an occurrence and no later index is one), searches the bounded
    140-character window starting there for the first date-pattern match,
    falls back to the whole card text when the word is absent, and fails
    with the extraction error exactly when the resulting text holds no
    date-pattern match. -/
theorem claim_C7_updated_date (card : Dom) :
    (∀ i, lastIndexOfList (toLowerCl (cardFullText card)) updatedChars = some i →
        occursAt (toLowerCl (cardFullText card)) updatedChars i
          ∧ (∀ j, occursAt (toLowerCl (cardFullText card)) updatedChars j → j ≤ i)
          ∧ (∀ d, extractUpdatedDateFromCard card = .ok d ↔
              firstDateLike ((cardFullText card).drop i
                |>.take (min (cardFullText card).length (i + 140) - i)) = some d))
      ∧ (lastIndexOfList (toLowerCl (cardFullText card)) updatedChars = none →
          (∀ j, ¬ occursAt (toLowerCl (cardFullText card)) updatedChars j)
            ∧ (∀ d, extractUpdatedDateFromCard card = .ok d ↔
                firstDateLike (cardFullText card) = some d))
      ∧ ((∃ e, extractUpdatedDateFromCard card = .error e) ↔
          firstDateLike (updatedWindow (cardFullText card)) = none) := by
  refine ⟨?_, ?_, ?_⟩
  · intro i hi
    obtain ⟨hpre, _, hmax⟩ :=
      lastIdxGo_some (toLowerCl (cardFullText card)) updatedChars
        (toLowerCl (cardFullText card)).length i hi
    refine ⟨List.isPrefixOf_iff_prefix.mp hpre, ?_, ?_⟩
    · intro j hj
      have hjle : j ≤ (toLowerCl (cardFullText card)).length :=
        occursAt_le_length _ _ j (by decide) hj
      exact hmax j hjle (List.isPrefixOf_iff_prefix.mpr hj)
    · intro d
      have hwin : updatedWindow (cardFullText card)
          = ((cardFullText card).drop i
              |>.take (min (cardFullText card).length (i + 140) - i)) := by
        unfold updatedWindow
        rw [hi]
      unfold extractUpdatedDateFromCard
      rw [hwin]
      cases hfd : firstDateLike ((cardFullText card).drop i
          |>.take (min (cardFullText card).length (i + 140) - i)) with
      | none => simp
      | some d0 => simp
  · intro hn
    have hall := lastIdxGo_none (toLowerCl (cardFullText card)) updatedChars
      (toLowerCl (cardFullText card)).length hn
    constructor
    · intro j hj
      have hjle : j ≤ (toLowerCl (cardFullText card)).length :=
        occursAt_le_length _ _ j (by decide) hj
      have := hall j hjle
      rw [List.isPrefixOf_iff_prefix.mpr hj] at this
      exact Bool.noConfusion this
    · intro d
      have hwin : updatedWindow (cardFullText card) = cardFullText card := by
        unfold updatedWindow
        rw [hn]
      unfold extractUpdatedDateFromCard
      rw [hwin]
      cases hfd : firstDateLike (cardFullText card) with
      | none => simp
      | some d0 => simp
  · unfold extractUpdatedDateFromCard
    cases hfd : firstDateLike (updatedWindow (cardFullText card)) with
    | none => simp
    | some d0 => simp

/-- Witness for claim C7 on a concrete card with an updated footer. -/
theorem claim_C7_updated_date_witness :
    extractUpdatedDateFromCard upCard = .ok "21 Jan 2026" := by
  have h := ((claim_C7_updated_date upCard).1 0 (by decide)).2.2 "21 Jan 2026"
  exact h.mpr (by decide)

lemma dyp_unique :
    ∀ (d1 d2 rest : List Char), (∀ c ∈ d1, c.isDigit = true) → (∀ c ∈ d2, c.isDigit = true) →
      (d1 ++ ['y', 'e', 'a', 'r']) <+: (d2 ++ ['y', 'e', 'a', 'r'] ++ rest) → d1 = d2 := by
  intro d1
  induction d1 with
  | nil =>
    intro d2 rest h1 h2 hp
    cases d2 with
    | nil => rfl
    | cons b bs =>
      exfalso
      simp only [List.nil_append, List.cons_append] at hp
      obtain ⟨hb, -⟩ := List.cons_prefix_cons.mp hp
      have hbd := h2 b (List.mem_cons_self b bs)
      rw [← hb] at hbd
      exact absurd hbd (by decide)
  | cons a as ih =>
    intro d2 rest h1 h2 hp
    cases d2 with
    | nil =>
      exfalso
      simp only [List.cons_append, List.nil_append] at hp
      obtain ⟨ha, -⟩ := List.cons_prefix_cons.mp hp
      have had := h1 a (List.mem_cons_self a as)
      rw [ha] at had
      exact absurd had (by decide)
    | cons b bs =>
      simp only [List.cons_append] at hp
      obtain ⟨hab, htail⟩ := List.cons_prefix_cons.mp hp
      have htl := ih bs rest (fun c hc => h1 c (List.mem_cons_of_mem a hc))
        (fun c hc => h2 c (List.mem_cons_of_mem b hc)) htail
      rw [hab, htl]

lemma treasury_prefix_false (ds rest dm : List Char)
    (hds : ∀ c ∈ ds, c.isDigit = true) (hdm : ∀ c ∈ dm, c.isDigit = true)
    (hne : dm ≠ ds) :
    (dm ++ ['y', 'e', 'a', 'r']).isPrefixOf (ds ++ ['y', 'e', 'a', 'r'] ++ rest) = false := by
  rw [Bool.eq_false_iff]
  intro hb
  exact hne (dyp_unique dm ds rest hdm hds (List.isPrefixOf_iff_prefix.mp hb))

/-- Claim C8: after lower-casing and whitespace normalization, a Treasury
    label of the shape digits-then-year maps to the key digits-y exactly
    when the digit string is one of 1, 2, 3, 5, 7, 10, 30, every other
    digit prefix is unrecognized, and a label matching no accepted prefix
    is unrecognized; for SOFR, the exact label sofr maps to sofr and each
    documented substring pair maps to its key, the rules applying in
    order (a label matching an earlier pair takes that earlier key, which
    is the only reading on which the rules are mutually consistent); a
    label matching no rule is unrecognized, and an unrecognized label of
    either family is dropped by the accumulation step without error. -/
theorem claim_C8_term_key_mapper :
    (∀ (label : String) (ds : List Char) (key : String) (rest : List Char),
        (ds, key) ∈ treasuryPairs →
        normTreasuryLabel label = ds ++ "year".data ++ rest →
        mapTreasuryKey label = some key)
      ∧ (∀ (label : String) (ds rest : List Char),
        normTreasuryLabel label = ds ++ "year".data ++ rest →
        ds ≠ [] → (∀ c ∈ ds, c.isDigit = true) →
        ds ∉ treasuryPairs.map Prod.fst →
        mapTreasuryKey label = none)
      ∧ (∀ label : String,
        (∀ p ∈ treasuryPairs,
          (p.1 ++ "year".data).isPrefixOf (normTreasuryLabel label) = false) →
        mapTreasuryKey label = none)
      ∧ (∀ label : String, trimCl (toLowerCl label.data) = "sofr".data →
          mapSofrKey label = some "sofr")
      ∧ (∀ label : String,
          containsSub (trimCl (toLowerCl label.data)) "30-day" = true →
          containsSub (trimCl (toLowerCl label.data)) "average" = true →
          mapSofrKey label = some "30d-avg")
      ∧ (∀ label : String,
          containsSub (trimCl (toLowerCl label.data)) "90-day" = true →
          containsSub (trimCl (toLowerCl label.data)) "average" = true →
          (containsSub (trimCl (toLowerCl label.data)) "30-day"
            && containsSub (trimCl (toLowerCl label.data)) "average") = false →
          mapSofrKey label = some "90d-avg")
      ∧ (∀ label : String,
          containsSub (trimCl (toLowerCl label.data)) "1-month" = true →
          containsSub (trimCl (toLowerCl label.data)) "term" = true →
          (containsSub (trimCl (toLowerCl label.data)) "30-day"
            && containsSub (trimCl (toLowerCl label.data)) "average") = false →
          (containsSub (trimCl (toLowerCl label.data)) "90-day"
            && containsSub (trimCl (toLowerCl label.data)) "average") = false →
          mapSofrKey label = some "1m-term")
      ∧ (∀ label : String,
          containsSub (trimCl (toLowerCl label.data)) "3-month" = true →
          containsSub (trimCl (toLowerCl label.data)) "term" = true →
          (containsSub (trimCl (toLowerCl label.data)) "30-day"
            && containsSub (trimCl (toLowerCl label.data)) "average") = false →
          (containsSub (trimCl (toLowerCl label.data)) "90-day"
            && containsSub (trimCl (toLowerCl label.data)) "average") = false →
          (containsSub (trimCl (toLowerCl label.data)) "1-month"
            && containsSub (trimCl (toLowerCl label.data)) "term") = false →
          mapSofrKey label = some "3m-term")
      ∧ (∀ label : String,
          trimCl (toLowerCl label.data) ≠ "sofr".data →
          (containsSub (trimCl (toLowerCl label.data)) "30-day"
            && containsSub (trimCl (toLowerCl label.data)) "average") = false →
          (containsSub (trimCl (toLowerCl label.data)) "90-day"
            && containsSub (trimCl (toLowerCl label.data)) "average") = false →
          (containsSub (trimCl (toLowerCl label.data)) "1-month"
            && containsSub (trimCl (toLowerCl label.data)) "term") = false →
          (containsSub (trimCl (toLowerCl label.data)) "3-month"
            && containsSub (trimCl (toLowerCl label.data)) "term") = false →
          mapSofrKey label = none)
      ∧ (∀ (m : RateMap) (r : Row), mapTreasuryKey r.termLabel = none →
          treasuryStep m r = m)
      ∧ (∀ (m : RateMap) (r : Row), mapSofrKey r.termLabel = none →
          sofrStep m r = m)
      ∧ (mapTreasuryKey "1 Year" = some "1y" ∧ mapTreasuryKey "1Year" = some "1y"
          ∧ mapTreasuryKey "1 year" = some "1y" ∧ mapTreasuryKey "2 Year" = some "2y"
          ∧ mapTreasuryKey "3 Year" = some "3y" ∧ mapTreasuryKey "5 Year" = some "5y"
          ∧ mapTreasuryKey "7 Year" = some "7y" ∧ mapTreasuryKey "10 Year" = some "10y"
          ∧ mapTreasuryKey "30 Year" = some "30y" ∧ mapTreasuryKey "Fed Funds" = none)
      ∧ (mapSofrKey "SOFR" = some "sofr" ∧ mapSofrKey "30-Day Average" = some "30d-avg"
          ∧ mapSofrKey "90-Day Average" = some "90d-avg"
          ∧ mapSofrKey "1-Month Term" = some "1m-term"
          ∧ mapSofrKey "3-Month Term" = some "3m-term"
          ∧ mapSofrKey "Fed Funds" = none) := by
  refine ⟨?_, ?_, ?_, ?_, ?_, ?_, ?_, ?_, ?_, ?_, ?_, by decide, by decide⟩
  · intro label ds key rest hmem hnorm
    simp only [treasuryPairs, List.mem_cons, List.not_mem_nil, or_false,
      Prod.mk.injEq] at hmem
    rcases hmem with ⟨h1, h2⟩ | ⟨h1, h2⟩ | ⟨h1, h2⟩ | ⟨h1, h2⟩ | ⟨h1, h2⟩ | ⟨h1, h2⟩
      | ⟨h1, h2⟩ <;> subst h1 <;> subst h2 <;>
      (simp only [mapTreasuryKey]; rw [hnorm]; simp [List.isPrefixOf])
  · intro label ds rest hnorm hne hds hnotin
    have hm1 : ("1".data : List Char) ∈ treasuryPairs.map Prod.fst := by decide
    have hm2 : ("2".data : List Char) ∈ treasuryPairs.map Prod.fst := by decide
    have hm3 : ("3".data : List Char) ∈ treasuryPairs.map Prod.fst := by decide
    have hm5 : ("5".data : List Char) ∈ treasuryPairs.map Prod.fst := by decide
    have hm7 : ("7".data : List Char) ∈ treasuryPairs.map Prod.fst := by decide
    have hm10 : ("10".data : List Char) ∈ treasuryPairs.map Prod.fst := by decide
    have hm30 : ("30".data : List Char) ∈ treasuryPairs.map Prod.fst := by decide
    have hc1 : (['1', 'y', 'e', 'a', 'r'] : List Char).isPrefixOf
        (ds ++ "year".data ++ rest) = false :=
      treasury_prefix_false ds rest ['1'] hds (by decide) (fun he => hnotin (he ▸ hm1))
    have hc2 : (['2', 'y', 'e', 'a', 'r'] : List Char).isPrefixOf
        (ds ++ "year".data ++ rest) = false :=
      treasury_prefix_false ds rest ['2'] hds (by decide) (fun he => hnotin (he ▸ hm2))
    have hc3 : (['3', 'y', 'e', 'a', 'r'] : List Char).isPrefixOf
        (ds ++ "year".data ++ rest) = false :=
      treasury_prefix_false ds rest ['3'] hds (by decide) (fun he => hnotin (he ▸ hm3))
    have hc5 : (['5', 'y', 'e', 'a', 'r'] : List Char).isPrefixOf
        (ds ++ "year".data ++ rest) = false :=
      treasury_prefix_false ds rest ['5'] hds (by decide) (fun he => hnotin (he ▸ hm5))
    have hc7 : (['7', 'y', 'e', 'a', 'r'] : List Char).isPrefixOf
        (ds ++ "year".data ++ rest) = false :=
      treasury_prefix_false ds rest ['7'] hds (by decide) (fun he => hnotin (he ▸ hm7))
    have hc10 : (['1', '0', 'y', 'e', 'a', 'r'] : List Char).isPrefixOf
        (ds ++ "year".data ++ rest) = false :=
      treasury_prefix_false ds rest ['1', '0'] hds (by decide) (fun he => hnotin (he ▸ hm10))
    have hc30 : (['3', '0', 'y', 'e', 'a', 'r'] : List Char).isPrefixOf
        (ds ++ "year".data ++ rest) = false :=
      treasury_prefix_false ds rest ['3', '0'] hds (by decide) (fun he => hnotin (he ▸ hm30))
    simp only [mapTreasuryKey]
    rw [hnorm]
    simp only [hc1, hc2, hc3, hc5, hc7, hc10, hc30]
    simp
  · intro label h
    have hc1 : (['1', 'y', 'e', 'a', 'r'] : List Char).isPrefixOf
        (normTreasuryLabel label) = false := h ("1".data, "1y") (by decide)
    have hc2 : (['2', 'y', 'e', 'a', 'r'] : List Char).isPrefixOf
        (normTreasuryLabel label) = false := h ("2".data, "2y") (by decide)
    have hc3 : (['3', 'y', 'e', 'a', 'r'] : List Char).isPrefixOf
        (normTreasuryLabel label) = false := h ("3".data, "3y") (by decide)
    have hc5 : (['5', 'y', 'e', 'a', 'r'] : List Char).isPrefixOf
        (normTreasuryLabel label) = false := h ("5".data, "5y") (by decide)
    have hc7 : (['7', 'y', 'e', 'a', 'r'] : List Char).isPrefixOf
        (normTreasuryLabel label) = false := h ("7".data, "7y") (by decide)
    have hc10 : (['1', '0', 'y', 'e', 'a', 'r'] : List Char).isPrefixOf
        (normTreasuryLabel label) = false := h ("10".data, "10y") (by decide)
    have hc30 : (['3', '0', 'y', 'e', 'a', 'r'] : List Char).isPrefixOf
        (normTreasuryLabel label) = false := h ("30".data, "30y") (by decide)
    simp only [mapTreasuryKey]
    simp only [hc1, hc2, hc3, hc5, hc7, hc10, hc30]
    simp
  · intro label h
    simp only [mapSofrKey]
    rw [h]
    simp
  · intro label h30 havg
    have hns : trimCl (toLowerCl label.data) ≠ "sofr".data := by
      intro he
      rw [he] at h30
      exact absurd h30 (by decide)
    simp only [mapSofrKey]
    rw [if_neg hns]
    simp [h30, havg]
  · intro label h90 havg h30f
    have hns : trimCl (toLowerCl label.data) ≠ "sofr".data := by
      intro he
      rw [he] at h90
      exact absurd h90 (by decide)
    have h30 : containsSub (trimCl (toLowerCl label.data)) "30-day" = false := by
      simpa [havg] using h30f
    simp only [mapSofrKey]
    rw [if_neg hns]
    simp [h30, h90, havg]
  · intro label h1m hterm h30f h90f
    have hns : trimCl (toLowerCl label.data) ≠ "sofr".data := by
      intro he
      rw [he] at h1m
      exact absurd h1m (by decide)
    simp only [mapSofrKey]
    rw [if_neg hns]
    simp [h30f, h90f, h1m, hterm]
  · intro label h3m hterm h30f h90f h1mf
    have hns : trimCl (toLowerCl label.data) ≠ "sofr".data := by
      intro he
      rw [he] at h3m
      exact absurd h3m (by decide)
    have h1mno : containsSub (trimCl (toLowerCl label.data)) "1-month" = false := by
      simpa [hterm] using h1mf
    simp only [mapSofrKey]
    rw [if_neg hns]
    simp [h30f, h90f, h1mno, hterm, h3m]
  · intro label hns h30f h90f h1mf h3mf
    simp only [mapSofrKey]
    rw [if_neg hns]
    simp [h30f, h90f, h1mf, h3mf]
  · intro m r h
    simp only [treasuryStep, h]
  · intro m r h
    simp only [sofrStep, h]

/-- Witness for claim C8 at the ten-year label. -/
theorem claim_C8_term_key_mapper_witness :
    mapTreasuryKey "10 Year" = some "10y" :=
  claim_C8_term_key_mapper.1 "10 Year" ("10".data) "10y" [] (by decide) (by decide)

/-- Witness for claim C9 at a concrete blank-ish token. -/
theorem claim_C9_blank_token_zero_witness :
    parsePercentToNumber " %, " = some ⟨0, 0⟩ :=
  (claim_C9_blank_token_zero.1 " %, " (by decide)).1
